import Mathlib

/-!
# Shallow embedding of `src/scripts/python/framework/analyzer.py`

The analyzer introspects an installed Python library: `safe_import` loads a
module while absorbing `SystemExit` and every other `Exception`;
`get_function_metadata` extracts a callable's argument list through a cascade
(structured signature, `__text_signature__`, first docstring line);
`get_class_metadata` extracts method records; `analyze_library` walks the
package tree merging everything into two first-seen-wins, insertion-ordered
dictionaries.

Modelling decisions (each noted again at the definition it concerns):
* Python strings are modelled as Lean `String`/`List Char`; the Python string
  operations used by the source (`strip`, `strip("()")`, `split`,
  `startswith`, `endswith`, `in`) are re-implemented on `List Char` for the
  ASCII range that the source manipulates.
* An import either yields a module or raises; the two raise classes handled by
  the source (`except SystemExit`, `except Exception`) form the fault
  alphabet, matching the spec's error taxonomy.
* `inspect.signature` on an arbitrary callable either succeeds, raises
  `TypeError`/`ValueError` (the two classes `_parse_sig` catches), or raises
  some other `Exception` (caught by `get_function_metadata`'s outer handler).
  On a plain function (an `inspect.isfunction` member, the only objects
  `get_class_metadata` introspects) attribute access runs no user code, so
  only `TypeError`/`ValueError` can arise; method signatures are therefore
  modelled with `Option`.
* Python dicts that only ever gain keys are insertion-ordered association
  lists; `dict.values()` is mapping the second component.
-/

namespace WrapPyJ

/-- ASCII characters stripped by Python's `str.strip()` and matched by the
regex class for whitespace. -/
def pyIsSpace (c : Char) : Bool :=
  c = ' ' || c = '\t' || c = '\n' || c = '\r' || c = '\x0b' || c = '\x0c'

/-- Python `s.strip()` (ASCII whitespace). -/
def pyStrip (s : List Char) : List Char :=
  ((s.dropWhile pyIsSpace).reverse.dropWhile pyIsSpace).reverse

/-- Python `s.strip(chars)`: remove leading and trailing characters drawn from
`cs`. -/
def pyStripChars (cs : List Char) (s : List Char) : List Char :=
  ((s.dropWhile (cs.contains ·)).reverse.dropWhile (cs.contains ·)).reverse

/-- Python `s.split(sep)` for a one-character separator: keeps empty pieces,
and the empty string splits to `[""]`. -/
def splitOnChar (sep : Char) : List Char → List (List Char)
  | [] => [[]]
  | c :: cs =>
    let r := splitOnChar sep cs
    if c = sep then [] :: r
    else
      match r with
      | g :: gs => (c :: g) :: gs
      | [] => [[c]]

/-- Python `s.startswith(p)`. -/
def pyStartsWith (s p : String) : Bool := p.data.isPrefixOf s.data

/-- Python `s.endswith(p)`. -/
def pyEndsWith (s p : String) : Bool := p.data.isSuffixOf s.data

/-- The five kinds of `inspect.Parameter`. -/
inductive ParamKind where
  | positionalOnly
  | positionalOrKeyword
  | varPositional
  | keywordOnly
  | varKeyword
deriving DecidableEq, Repr

/-- One `inspect.Parameter`: its name, whether `default is not Parameter.empty`,
and its kind. -/
structure Param where
  name : String
  hasDefault : Bool
  kind : ParamKind
deriving DecidableEq, Repr

/-- Outcome of `inspect.signature(obj)` on an arbitrary object: parameters, a
`TypeError`/`ValueError` (caught inside `_parse_sig`), or any other
`Exception` (escapes `_parse_sig`, caught by `get_function_metadata`). -/
inductive SigOutcome where
  | ok (params : List Param)
  | raiseTypeValue
  | raiseOther
deriving DecidableEq, Repr

/-- Introspection data of a plain function found by
`inspect.getmembers(cls, inspect.isfunction)`: `sig = none` models
`inspect.signature` raising `TypeError`/`ValueError` (the only classes it can
raise on a plain function), `doc` models `inspect.getdoc` (`none` = no
docstring). -/
structure MethodInfo where
  sig : Option (List Param)
  doc : Option String
deriving DecidableEq, Repr

/-- A live Python object as the analyzer observes it.
`module_attr` models `getattr(obj, "__module__", "") or ""` (`none` = missing
or `None`); `name_attr` models `__name__` (always present on classes);
`reprStr` is `repr(obj)`; `hasCall` says whether a non-class object is
callable; `doc` is the cleaned `inspect.getdoc` result; `methods` lists the
`inspect.getmembers(cls, inspect.isfunction)` members of a class in
`getmembers` order. -/
structure PyObj where
  module_attr : Option String
  name_attr : Option String
  reprStr : String
  hasCall : Bool
  isClass : Bool
  sigOutcome : SigOutcome
  text_signature : Option String
  doc : Option String
  methods : List (String × MethodInfo)
deriving DecidableEq, Repr

/-- A loaded module: its `__name__`, whether it has `__path__` (is a package),
and its `inspect.getmembers(mod)` list in `getmembers` order. -/
structure PyModule where
  name : String
  isPackage : Bool
  members : List (String × PyObj)
deriving DecidableEq, Repr

/-- The two raise classes `safe_import` handles: `SystemExit` (carrying the
exit code) and any other `Exception` — the fault taxonomy of the spec. -/
inductive PyFault where
  | systemExit (code : Int)
  | exception (msg : String)
deriving DecidableEq, Repr

/-- The world the analyzer runs against: `importFn` models
`importlib.import_module` (a raised fault is an `.error`), `walk` the dotted
names yielded by `pkgutil.walk_packages(root.__path__, root.__name__ + ".")`
for the analyzed root. -/
structure PyEnv where
  importFn : String → Except PyFault PyModule
  walk : List String

/-- `safe_import`: import a module, intercepting `SystemExit` and every other
`Exception`; both handler arms return `None`. -/
def safe_import (importFn : String → Except PyFault PyModule) (name : String) :
    Option PyModule :=
  match importFn name with
  | .ok m => some m
  | .error (.systemExit _) => none
  | .error (.exception _) => none

/-- `_is_callable`: `callable(obj)`. Every class object is callable (its
metaclass provides `__call__`); a non-class object is callable when it has
`__call__` itself. -/
def _is_callable (obj : PyObj) : Bool := obj.isClass || obj.hasCall

/-- `parse_text_signature`: strip whitespace, strip `(`/`)`, split on commas,
drop bare `/`, `*` and empty tokens, keep each token's part before `=`,
stripped. -/
def parse_text_signature (sig : String) : List String :=
  if sig = "" then []
  else
    let stripped := pyStripChars ['(', ')'] (pyStrip sig.data)
    (splitOnChar ',' stripped).foldl
      (fun args arg =>
        let arg := pyStrip arg
        if arg = ['/'] || arg = ['*'] || arg = [] then args
        else args ++ [String.mk (pyStrip (arg.takeWhile (· ≠ '=')))])
      []

/-- `_count_optional`: the parameter has a default, or is `*args` / `**kwargs`. -/
def _count_optional (p : Param) : Bool :=
  p.hasDefault || p.kind == .varPositional || p.kind == .varKeyword

/-- `_parse_sig`: on success the ordered parameter names and
`sum(_count_optional(p) for p in ...)` (a Python sum of booleans);
`TypeError`/`ValueError` give `([], 0)`; any other exception propagates. -/
def _parse_sig (obj : PyObj) : Except Unit (List String × Nat) :=
  match obj.sigOutcome with
  | .ok ps =>
    .ok (ps.map Param.name, (ps.map fun p => if _count_optional p then 1 else 0).sum)
  | .raiseTypeValue => .ok ([], 0)
  | .raiseOther => .error ()

/-- `[a-zA-Z_]` — first character of the identifier in the docstring regex. -/
def isIdentHead (c : Char) : Bool := c.isAlpha || c = '_'

/-- `[a-zA-Z0-9_]` — later characters of the identifier in the docstring
regex. -/
def isIdentTail (c : Char) : Bool := c.isAlpha || c.isDigit || c = '_'

/-- The lazy group `(.*?)\)`: the shortest run of non-newline characters
followed by `)` — i.e. everything up to the first `)`, failing if a newline
comes first. -/
def lazyCapture : List Char → Option (List Char)
  | [] => none
  | c :: cs =>
    if c = ')' then some []
    else if c = '\n' then none
    else (lazyCapture cs).map (c :: ·)

/-- `re.match(r"^\s*[a-zA-Z_][a-zA-Z0-9_]*\((.*?)\)", doc)`, returning the
captured group: skip whitespace, read an identifier, expect `(`, capture up to
the first `)`. -/
def docSigMatch (doc : String) : Option (List Char) :=
  match doc.data.dropWhile pyIsSpace with
  | [] => none
  | c :: cs =>
    if isIdentHead c then
      match cs.dropWhile isIdentTail with
      | '(' :: tail => lazyCapture tail
      | _ => none
    else none

/-- The record `get_function_metadata` builds. -/
structure FnMeta where
  name : String
  args : List String
  optionalCount : Nat
  doc : String
  module : String
deriving DecidableEq, Repr

/-- `[p.strip() for p in sig_part.split(",") if p.strip() not in ("/", "*")]`
from the docstring branch — empty tokens are kept here. -/
def docPieces (sig_part : List Char) : List (List Char) :=
  ((splitOnChar ',' sig_part).filter fun p =>
      ¬(pyStrip p = ['/'] ∨ pyStrip p = ['*'])).map pyStrip

/-- `get_function_metadata`: try `_parse_sig` and `inspect.getdoc` (any
exception gives `[], 0, ""`); when the argument list is empty fall back first
to a truthy `__text_signature__` (counting `=` over
`text_sig.strip("()").split(",")`), else to the docstring regex. -/
def get_function_metadata (func : PyObj) (module_name : String) : FnMeta :=
  let parsed :=
    match _parse_sig func with
    | .ok (a, o) => (a, o, func.doc.getD "")
    | .error _ => ([], 0, "")
  let args0 := parsed.1
  let opt0 := parsed.2.1
  let doc := parsed.2.2
  -- `getattr(func, "__text_signature__", None)`: `None` and `""` are both
  -- falsy, so they are merged into `""` before the truthiness test below.
  let text_sig := func.text_signature.getD ""
  let res :=
    if args0 = [] then
      if text_sig ≠ "" then
        (parse_text_signature text_sig,
         ((splitOnChar ',' (pyStripChars ['(', ')'] text_sig.data)).map
            fun t => if t.contains '=' then 1 else 0).sum)
      else if doc ≠ "" then
        match docSigMatch doc with
        | some sig_part =>
          let pieces := docPieces sig_part
          (pieces.map fun p => String.mk (pyStrip (p.takeWhile (· ≠ '='))),
           (pieces.map fun p => if p.contains '=' then 1 else 0).sum)
        | none => (args0, opt0)
      else (args0, opt0)
    else (args0, opt0)
  { name := func.name_attr.getD func.reprStr
    args := res.1
    optionalCount := res.2
    doc := doc
    module := module_name }

/-- `_parse_sig` specialised to a plain function, whose introspection raises
only `TypeError`/`ValueError` (modelled `none`). -/
def methodSig : Option (List Param) → List String × Nat
  | some ps => (ps.map Param.name, (ps.map fun p => if _count_optional p then 1 else 0).sum)
  | none => ([], 0)

/-- One method record inside a class record. -/
structure MethodMeta where
  name : String
  args : List String
  optionalCount : Nat
  doc : String
deriving DecidableEq, Repr

/-- The record `get_class_metadata` builds. -/
structure ClsMeta where
  name : String
  doc : String
  methods : List MethodMeta
  module : String
deriving DecidableEq, Repr

/-- `get_class_metadata`: walk the plain-function members, skip dunders other
than `__init__`, record each method. `cls.__name__` and `cls.__module__`
always exist on a class, so the `getD` defaults are never taken for the
objects this is applied to. -/
def get_class_metadata (cls : PyObj) : ClsMeta :=
  let methods := cls.methods.foldl
    (fun acc nm =>
      if pyStartsWith nm.1 "__" && pyEndsWith nm.1 "__" && nm.1 != "__init__" then acc
      else
        let so := methodSig nm.2.sig
        acc ++ [{ name := nm.1, args := so.1, optionalCount := so.2,
                  doc := nm.2.doc.getD "" }])
    []
  { name := cls.name_attr.getD cls.reprStr
    doc := cls.doc.getD ""
    methods := methods
    module := cls.module_attr.getD "" }

/-- The two dictionaries `analyze_library` accumulates, as insertion-ordered
association lists. -/
structure VisitState where
  functions : List (String × FnMeta)
  classes : List (String × ClsMeta)
deriving DecidableEq, Repr

/-- `_want`: `not allow or name in allow` (`allow` is used only for
membership, so the Python set is modelled as the underlying list). -/
def _want (allow : List String) (name : String) : Bool :=
  allow.isEmpty || allow.contains name

/-- The body of `visit`'s function loop for one `getmembers` entry: the member
name is ignored, the object's `__module__` must extend the library name, the
allow-list must pass, and a new name is appended while an existing name leaves
the dictionary unchanged. -/
def visitFn (lib_name : String) (allow : List String)
    (fns : List (String × FnMeta)) (member : String × PyObj) :
    List (String × FnMeta) :=
  let obj := member.2
  if _is_callable obj then
    let module_name := obj.module_attr.getD ""
    if pyStartsWith module_name lib_name then
      let fn_name := obj.name_attr.getD obj.reprStr
      if _want allow fn_name then
        if fns.any (fun p => p.1 == fn_name) then fns
        else fns ++ [(fn_name, get_function_metadata obj module_name)]
      else fns
    else fns
  else fns

/-- The body of `visit`'s class loop for one `getmembers` entry, keyed by
`f"{module_name}.{cls.__name__}"`. -/
def visitCls (lib_name : String) (allow : List String)
    (acc : List (String × ClsMeta)) (member : String × PyObj) :
    List (String × ClsMeta) :=
  let cls := member.2
  if cls.isClass then
    let module_name := cls.module_attr.getD ""
    if pyStartsWith module_name lib_name then
      let cls_name := cls.name_attr.getD cls.reprStr
      if _want allow cls_name then
        let key := module_name ++ "." ++ cls_name
        if acc.any (fun p => p.1 == key) then acc
        else acc ++ [(key, get_class_metadata cls)]
      else acc
    else acc
  else acc

/-- `visit(mod)` on a non-`None` module: the function loop over
`getmembers(mod, _is_callable)` followed by the class loop over
`getmembers(mod, inspect.isclass)` (both loops see the same member list,
filtered by their predicate inside the step). -/
def visit (lib_name : String) (allow : List String) (mod : PyModule)
    (st : VisitState) : VisitState :=
  { functions := mod.members.foldl (visitFn lib_name allow) st.functions
    classes := mod.members.foldl (visitCls lib_name allow) st.classes }

/-- The analyzer's result dictionary: either `{"error": ...}` or
`{"library": ..., "functions": ..., "classes": ...}`. -/
inductive AnalysisResult where
  | importError (msg : String)
  | result (library : String) (functions : List FnMeta) (classes : List ClsMeta)
deriving DecidableEq, Repr

/-- `SKIP_PATTERNS = ('.f2py',)`. -/
def SKIP_PATTERNS : List String := [".f2py"]

/-- `analyze_library`: load the root through `safe_import` (error marker if it
is absent), visit the root, then — only when no allow-list was given and the
root is a package — fold over the walked submodule names, skipping
`SKIP_PATTERNS` suffixes, loading each through `safe_import` and visiting it
(`visit(None)` returns immediately, giving the unchanged state). The result
type records that the call could in principle propagate a `PyFault`. -/
def analyze_library (env : PyEnv) (lib_name : String)
    (include_only : Option (List String)) : Except PyFault AnalysisResult :=
  match safe_import env.importFn lib_name with
  | none => .ok (.importError ("Failed to import " ++ lib_name))
  | some root =>
    -- `allow = set(include_only or ())`: `None` and `[]` both give the empty
    -- set; the set is only used for membership, so the list itself serves.
    let allow : List String := include_only.getD []
    let st0 := visit lib_name allow root ⟨[], []⟩
    let st :=
      if allow.isEmpty && root.isPackage then
        env.walk.foldl
          (fun st subname =>
            if SKIP_PATTERNS.any (fun pat => pyEndsWith subname pat) then st
            else
              match safe_import env.importFn subname with
              | none => st
              | some m => visit lib_name allow m st)
          st0
      else st0
    .ok (.result lib_name (st.functions.map (·.2)) (st.classes.map (·.2)))

/-! ## Generic helper lemmas -/

/-- A Python `sum` over booleans counts the `true`s. -/
theorem sum_boole_eq_countP {α : Type} (q : α → Bool) :
    ∀ l : List α, (l.map fun a => if q a then 1 else 0).sum = l.countP q
  | [] => rfl
  | a :: l => by
    simp only [List.map_cons, List.sum_cons, List.countP_cons,
      sum_boole_eq_countP q l]
    omega

/-- `sum_boole_eq_countP` with a decidable proposition in place of the
boolean predicate. -/
theorem sum_boole_eq_countP_decide {α : Type} (q : α → Prop) [DecidablePred q] :
    ∀ l : List α, (l.map fun a => if q a then 1 else 0).sum
      = l.countP fun a => decide (q a)
  | [] => rfl
  | a :: l => by
    simp only [List.map_cons, List.sum_cons, List.countP_cons,
      sum_boole_eq_countP_decide q l, decide_eq_true_eq]
    omega

/-- Folding a step that only ever appends yields an extension of the initial
list. -/
theorem foldl_extension {α β : Type} (step : List α → β → List α)
    (hstep : ∀ l b, ∃ r, step l b = l ++ r) :
    ∀ (xs : List β) (l : List α), ∃ r, xs.foldl step l = l ++ r
  | [], l => ⟨[], by simp⟩
  | b :: xs, l => by
    obtain ⟨r₁, h₁⟩ := hstep l b
    obtain ⟨r₂, h₂⟩ := foldl_extension step hstep xs (l ++ r₁)
    exact ⟨r₁ ++ r₂, by simp [List.foldl_cons, h₁, h₂]⟩

/-- Folding a property-preserving step preserves the property. -/
theorem foldl_pres {α β : Type} (step : α → β → α) (P : α → Prop)
    (hstep : ∀ l b, P l → P (step l b)) :
    ∀ (xs : List β) (l : α), P l → P (xs.foldl step l)
  | [], _, h => h
  | b :: xs, l, h => foldl_pres step P hstep xs (step l b) (hstep l b h)

/-! ## Invariants of the two accumulated dictionaries -/

/-- Every function entry's stored record repeats the key as its `name` field,
and the key passed the allow-list test. -/
def FnEntryOK (allow : List String) (p : String × FnMeta) : Prop :=
  p.2.name = p.1 ∧ _want allow p.2.name = true

/-- Every class entry is keyed by `module ++ "." ++ name` of its record, and
the class name passed the allow-list test. -/
def ClsEntryOK (allow : List String) (p : String × ClsMeta) : Prop :=
  p.1 = p.2.module ++ "." ++ p.2.name ∧ _want allow p.2.name = true

/-- The invariant maintained by the traversal: both dictionaries have
duplicate-free keys and well-formed entries. -/
def StateOK (allow : List String) (st : VisitState) : Prop :=
  (st.functions.map Prod.fst).Nodup ∧ (∀ p ∈ st.functions, FnEntryOK allow p) ∧
  (st.classes.map Prod.fst).Nodup ∧ (∀ p ∈ st.classes, ClsEntryOK allow p)

theorem visitFn_extend (lib : String) (allow : List String)
    (fns : List (String × FnMeta)) (m : String × PyObj) :
    ∃ r, visitFn lib allow fns m = fns ++ r := by
  unfold visitFn
  dsimp only
  repeat' split
  all_goals first
    | exact ⟨[], (List.append_nil _).symm⟩
    | exact ⟨_, rfl⟩

theorem visitCls_extend (lib : String) (allow : List String)
    (acc : List (String × ClsMeta)) (m : String × PyObj) :
    ∃ r, visitCls lib allow acc m = acc ++ r := by
  unfold visitCls
  dsimp only
  repeat' split
  all_goals first
    | exact ⟨[], (List.append_nil _).symm⟩
    | exact ⟨_, rfl⟩

theorem visit_extend (lib : String) (allow : List String) (mod : PyModule)
    (st : VisitState) :
    ∃ rf rc, (visit lib allow mod st).functions = st.functions ++ rf ∧
      (visit lib allow mod st).classes = st.classes ++ rc := by
  obtain ⟨rf, hf⟩ :=
    foldl_extension _ (visitFn_extend lib allow) mod.members st.functions
  obtain ⟨rc, hc⟩ :=
    foldl_extension _ (visitCls_extend lib allow) mod.members st.classes
  exact ⟨rf, rc, hf, hc⟩

theorem visitFn_step_ok (lib : String) (allow : List String)
    (fns : List (String × FnMeta)) (m : String × PyObj)
    (h : (fns.map Prod.fst).Nodup ∧ ∀ p ∈ fns, FnEntryOK allow p) :
    ((visitFn lib allow fns m).map Prod.fst).Nodup ∧
      ∀ p ∈ visitFn lib allow fns m, FnEntryOK allow p := by
  unfold visitFn
  dsimp only
  split
  case isFalse => exact h
  split
  case isFalse => exact h
  split
  case isFalse => exact h
  next hwant =>
  split
  case isTrue => exact h
  next habsent =>
  constructor
  · rw [List.map_append, List.nodup_append]
    refine ⟨h.1, by simp, ?_⟩
    intro a ha hb
    simp only [List.map_cons, List.map_nil, List.mem_singleton] at hb
    subst hb
    rw [List.mem_map] at ha
    obtain ⟨p, hp, hpa⟩ := ha
    rw [Bool.not_eq_true, List.any_eq_false] at habsent
    have := habsent p hp
    simp [hpa] at this
  · intro p hp
    rcases List.mem_append.1 hp with hp | hp
    · exact h.2 p hp
    · simp only [List.mem_singleton] at hp
      subst hp
      exact ⟨rfl, hwant⟩

theorem visitCls_step_ok (lib : String) (allow : List String)
    (acc : List (String × ClsMeta)) (m : String × PyObj)
    (h : (acc.map Prod.fst).Nodup ∧ ∀ p ∈ acc, ClsEntryOK allow p) :
    ((visitCls lib allow acc m).map Prod.fst).Nodup ∧
      ∀ p ∈ visitCls lib allow acc m, ClsEntryOK allow p := by
  unfold visitCls
  dsimp only
  split
  case isFalse => exact h
  split
  case isFalse => exact h
  split
  case isFalse => exact h
  next hwant =>
  split
  case isTrue => exact h
  next habsent =>
  constructor
  · rw [List.map_append, List.nodup_append]
    refine ⟨h.1, by simp, ?_⟩
    intro a ha hb
    simp only [List.map_cons, List.map_nil, List.mem_singleton] at hb
    subst hb
    rw [List.mem_map] at ha
    obtain ⟨p, hp, hpa⟩ := ha
    rw [Bool.not_eq_true, List.any_eq_false] at habsent
    have := habsent p hp
    simp [hpa] at this
  · intro p hp
    rcases List.mem_append.1 hp with hp | hp
    · exact h.2 p hp
    · simp only [List.mem_singleton] at hp
      subst hp
      exact ⟨rfl, hwant⟩

theorem visit_StateOK (lib : String) (allow : List String) (mod : PyModule)
    (st : VisitState) (h : StateOK allow st) :
    StateOK allow (visit lib allow mod st) := by
  obtain ⟨h1, h2, h3, h4⟩ := h
  have hf := foldl_pres (visitFn lib allow)
    (fun l => (l.map Prod.fst).Nodup ∧ ∀ p ∈ l, FnEntryOK allow p)
    (fun l b => visitFn_step_ok lib allow l b) mod.members st.functions ⟨h1, h2⟩
  have hc := foldl_pres (visitCls lib allow)
    (fun l => (l.map Prod.fst).Nodup ∧ ∀ p ∈ l, ClsEntryOK allow p)
    (fun l b => visitCls_step_ok lib allow l b) mod.members st.classes ⟨h3, h4⟩
  exact ⟨hf.1, hf.2, hc.1, hc.2⟩

/-! ## The state computed by `analyze_library` once the root has loaded -/

/-- The final `VisitState` of a successful analysis: root visit, then — in
full-scan mode on a package — the walk fold. This repeats the corresponding
piece of `analyze_library` so that lemmas can name the state. -/
def analyzeFold (env : PyEnv) (lib_name : String) (allow : List String)
    (root : PyModule) : VisitState :=
  let st0 := visit lib_name allow root ⟨[], []⟩
  if allow.isEmpty && root.isPackage then
    env.walk.foldl
      (fun st subname =>
        if SKIP_PATTERNS.any (fun pat => pyEndsWith subname pat) then st
        else
          match safe_import env.importFn subname with
          | none => st
          | some m => visit lib_name allow m st)
      st0
  else st0

theorem analyze_eq_of_root_fail (env : PyEnv) (lib_name : String)
    (include_only : Option (List String))
    (h : safe_import env.importFn lib_name = none) :
    analyze_library env lib_name include_only =
      .ok (.importError ("Failed to import " ++ lib_name)) := by
  unfold analyze_library
  rw [h]

theorem analyze_eq_of_root_ok (env : PyEnv) (lib_name : String)
    (include_only : Option (List String)) (root : PyModule)
    (h : safe_import env.importFn lib_name = some root) :
    analyze_library env lib_name include_only =
      .ok (.result lib_name
        ((analyzeFold env lib_name (include_only.getD []) root).functions.map (·.2))
        ((analyzeFold env lib_name (include_only.getD []) root).classes.map (·.2))) := by
  unfold analyze_library analyzeFold
  rw [h]

theorem analyzeFold_StateOK (env : PyEnv) (lib_name : String)
    (allow : List String) (root : PyModule) :
    StateOK allow (analyzeFold env lib_name allow root) := by
  have h0 : StateOK allow (⟨[], []⟩ : VisitState) := by
    refine ⟨List.nodup_nil, ?_, List.nodup_nil, ?_⟩ <;> intro p hp <;> cases hp
  have h1 := visit_StateOK lib_name allow root _ h0
  unfold analyzeFold
  dsimp only
  split
  · refine foldl_pres _ (StateOK allow) (fun st sub hst => ?_) env.walk _ h1
    dsimp only
    split
    · exact hst
    · split
      · exact hst
      · exact visit_StateOK lib_name allow _ _ hst
  · exact h1

/-- Any walk step extends the state's dictionaries. -/
theorem walk_step_extend (env : PyEnv) (lib_name : String)
    (allow : List String) (st : VisitState) (subname : String) :
    ∃ rf rc,
      (if SKIP_PATTERNS.any (fun pat => pyEndsWith subname pat) then st
       else
         match safe_import env.importFn subname with
         | none => st
         | some m => visit lib_name allow m st).functions = st.functions ++ rf ∧
      (if SKIP_PATTERNS.any (fun pat => pyEndsWith subname pat) then st
       else
         match safe_import env.importFn subname with
         | none => st
         | some m => visit lib_name allow m st).classes = st.classes ++ rc := by
  split
  · exact ⟨[], [], by simp, by simp⟩
  · split
    · exact ⟨[], [], by simp, by simp⟩
    · exact visit_extend lib_name allow _ st

/-! ## Key-presence lemmas -/

theorem any_append_left {α : Type} (l r : List α) (f : α → Bool)
    (h : l.any f = true) : (l ++ r).any f = true := by
  rw [List.any_append, h, Bool.true_or]

/-- After processing a qualifying member (callable, module-path match,
allow-list pass), the functions dictionary holds its name as a key. -/
theorem visitFn_key_present (lib : String) (allow : List String)
    (fns : List (String × FnMeta)) (m : String × PyObj)
    (hcall : _is_callable m.2 = true)
    (hpre : pyStartsWith (m.2.module_attr.getD "") lib = true)
    (hwant : _want allow (m.2.name_attr.getD m.2.reprStr) = true) :
    ((visitFn lib allow fns m).any
      fun p => p.1 == m.2.name_attr.getD m.2.reprStr) = true := by
  unfold visitFn
  dsimp only
  rw [if_pos hcall, if_pos hpre, if_pos hwant]
  by_cases hany : (fns.any fun p => p.1 == m.2.name_attr.getD m.2.reprStr) = true
  · rw [if_pos hany]; exact hany
  · rw [if_neg hany, List.any_append]
    simp

/-- Same for the class loop and the class dictionary's composite key. -/
theorem visitCls_key_present (lib : String) (allow : List String)
    (acc : List (String × ClsMeta)) (m : String × PyObj)
    (hcls : m.2.isClass = true)
    (hpre : pyStartsWith (m.2.module_attr.getD "") lib = true)
    (hwant : _want allow (m.2.name_attr.getD m.2.reprStr) = true) :
    ((visitCls lib allow acc m).any
      fun p => p.1 == (m.2.module_attr.getD "") ++ "." ++ (m.2.name_attr.getD m.2.reprStr)) = true := by
  unfold visitCls
  dsimp only
  rw [if_pos hcls, if_pos hpre, if_pos hwant]
  by_cases hany : (acc.any
      fun p => p.1 == (m.2.module_attr.getD "") ++ "." ++ (m.2.name_attr.getD m.2.reprStr)) = true
  · rw [if_pos hany]; exact hany
  · rw [if_neg hany, List.any_append]
    simp

theorem foldl_visitFn_any (lib : String) (allow : List String)
    (xs : List (String × PyObj)) (fns : List (String × FnMeta))
    (f : String × FnMeta → Bool) (h : fns.any f = true) :
    ((xs.foldl (visitFn lib allow) fns).any f) = true := by
  obtain ⟨r, hr⟩ := foldl_extension _ (visitFn_extend lib allow) xs fns
  rw [hr]
  exact any_append_left _ _ _ h

theorem foldl_visitCls_any (lib : String) (allow : List String)
    (xs : List (String × PyObj)) (acc : List (String × ClsMeta))
    (f : String × ClsMeta → Bool) (h : acc.any f = true) :
    ((xs.foldl (visitCls lib allow) acc).any f) = true := by
  obtain ⟨r, hr⟩ := foldl_extension _ (visitCls_extend lib allow) xs acc
  rw [hr]
  exact any_append_left _ _ _ h

theorem length_le_one_of_nodup_const {l : List String} (h : l.Nodup)
    (a : String) (hall : ∀ x ∈ l, x = a) : l.length ≤ 1 := by
  match l with
  | [] => simp
  | [_] => simp
  | x :: y :: t =>
    exfalso
    have hx := hall x (by simp)
    have hy := hall y (by simp)
    rw [List.nodup_cons] at h
    exact h.1 (by simp [hx, hy])

/-! ## Concrete sample library used by the witnesses -/

/-- A function object with structured parameters `(a, b=1, *args)`. -/
def exFun : PyObj :=
  { module_attr := some "mylib.core", name_attr := some "f", reprStr := "<function f>",
    hasCall := true, isClass := false,
    sigOutcome := .ok [⟨"a", false, .positionalOrKeyword⟩, ⟨"b", true, .positionalOrKeyword⟩,
                       ⟨"args", false, .varPositional⟩],
    text_signature := none, doc := some "f doc", methods := [] }

/-- A class object exported from `mylib.core`. -/
def exClass : PyObj :=
  { module_attr := some "mylib.core", name_attr := some "C", reprStr := "<class C>",
    hasCall := false, isClass := true,
    sigOutcome := .raiseTypeValue, text_signature := none, doc := some "C doc",
    methods := [("__init__", ⟨some [⟨"self", false, .positionalOrKeyword⟩], some "init doc"⟩),
                ("__repr__", ⟨some [], none⟩),
                ("m", ⟨none, some "m doc"⟩)] }

/-- A root package module exporting `exClass` and `exFun`. -/
def exMod : PyModule :=
  { name := "mylib", isPackage := true, members := [("C", exClass), ("f", exFun)] }

/-- An empty plain module. -/
def modEmpty : PyModule := { name := "m", isPackage := false, members := [] }

/-- An import behaviour: the root and one submodule load, one submodule raises
an `Exception`, everything else (including one submodule that calls
`sys.exit`) raises `SystemExit`. -/
def exImp : String → Except PyFault PyModule := fun n =>
  if n = "mylib" then .ok exMod
  else if n = "mylib.good" then
    .ok { name := "mylib.good", isPackage := false, members := [("f", exFun)] }
  else if n = "mylib.bad" then .error (.exception "boom")
  else .error (.systemExit 2)

/-- The walk enumerates a well-behaved, a raising, an exiting, and a
skip-suffixed submodule. -/
def exEnv : PyEnv := ⟨exImp, ["mylib.good", "mylib.bad", "mylib.exit", "mylib.x.f2py"]⟩

/-! ## Claims -/

/-- C1: for every library name whose root import succeeds, `analyze_library`
returns the success result dictionary and never raises, no matter what any
individual submodule does at import time — the import function away from the
root and the walked name list are arbitrary, so every submodule may raise any
`Exception` or request process exit, and all of it is absorbed inside the
traversal. -/
theorem analyze_library_total_on_good_root (imp : String → Except PyFault PyModule)
    (walk : List String) (lib_name : String)
    (include_only : Option (List String)) (root : PyModule) :
    ∃ fns cls,
      analyze_library ⟨fun n => if n = lib_name then .ok root else imp n, walk⟩
        lib_name include_only = .ok (.result lib_name fns cls) := by
  have h : safe_import (fun n => if n = lib_name then .ok root else imp n) lib_name
      = some root := by
    simp [safe_import]
  exact ⟨_, _, analyze_eq_of_root_ok _ _ _ _ h⟩

/-- C2: `safe_import` returns the loaded module on success, `None` when
the import raises `SystemExit`, and `None` when it raises any other error —
no import-time failure reaches the caller. -/
theorem safe_import_spec (imp : String → Except PyFault PyModule) (name : String) :
    (∀ m, imp name = .ok m → safe_import imp name = some m) ∧
    (∀ code, imp name = .error (.systemExit code) → safe_import imp name = none) ∧
    (∀ msg, imp name = .error (.exception msg) → safe_import imp name = none) := by
  refine ⟨fun m h => ?_, fun code h => ?_, fun msg h => ?_⟩ <;> simp [safe_import, h]

/-- Witness for C2 at concrete import behaviours. -/
theorem safe_import_spec_witness :
    safe_import (fun _ => .ok modEmpty) "m" = some modEmpty ∧
    safe_import (fun _ => .error (.systemExit 9)) "m" = none ∧
    safe_import (fun _ => .error (.exception "boom")) "m" = none :=
  ⟨(safe_import_spec (fun _ => .ok modEmpty) "m").1 modEmpty rfl,
   (safe_import_spec (fun _ => .error (.systemExit 9)) "m").2.1 9 rfl,
   (safe_import_spec (fun _ => .error (.exception "boom")) "m").2.2 "boom" rfl⟩

/-- C3: when the root library fails to load — with any fault — the analysis
returns the error marker naming the library, independently of every
other import outcome and of the walked submodule list (no member extraction or
traversal happens); when the root loads, the result carries the library name
and the two record collections, not the error marker. -/
theorem analyze_library_root_dichotomy (imp : String → Except PyFault PyModule)
    (walk : List String) (lib_name : String) (include_only : Option (List String))
    (fault : PyFault) (root : PyModule) :
    analyze_library ⟨fun n => if n = lib_name then .error fault else imp n, walk⟩
        lib_name include_only = .ok (.importError ("Failed to import " ++ lib_name)) ∧
    (∃ fns cls,
      analyze_library ⟨fun n => if n = lib_name then .ok root else imp n, walk⟩
        lib_name include_only = .ok (.result lib_name fns cls)) := by
  constructor
  · have h : safe_import (fun n => if n = lib_name then .error fault else imp n) lib_name
        = none := by
      cases fault <;> simp [safe_import]
    exact analyze_eq_of_root_fail _ _ _ h
  · have h : safe_import (fun n => if n = lib_name then .ok root else imp n) lib_name
        = some root := by
      simp [safe_import]
    exact ⟨_, _, analyze_eq_of_root_ok _ _ _ _ h⟩

/-- A callable with structured parameters `(a, b=1, *args)` and nothing
else. -/
def exObjABArgs : PyObj :=
  { module_attr := some "mylib.core", name_attr := some "g", reprStr := "<g>",
    hasCall := true, isClass := false,
    sigOutcome := .ok [⟨"a", false, .positionalOrKeyword⟩, ⟨"b", true, .positionalOrKeyword⟩,
                       ⟨"args", false, .varPositional⟩],
    text_signature := none, doc := none, methods := [] }

/-- C4: when structured introspection succeeds the argument list is the
ordered parameter-name list and the optional count is the number of
parameters with a default or of variable-positional/variable-keyword kind;
in particular `(a, b=1, *args)` gives `["a","b","args"]` and `2`. -/
theorem parse_sig_structured (ma na : Option String) (r : String) (hc ic : Bool)
    (ps : List Param) (ts d : Option String) (ms : List (String × MethodInfo)) :
    _parse_sig { module_attr := ma, name_attr := na, reprStr := r, hasCall := hc,
                 isClass := ic, sigOutcome := .ok ps, text_signature := ts,
                 doc := d, methods := ms }
      = .ok (ps.map Param.name, ps.countP _count_optional) ∧
    _parse_sig exObjABArgs = .ok (["a", "b", "args"], 2) := by
  constructor
  · unfold _parse_sig
    dsimp only
    rw [sum_boole_eq_countP]
  · rfl

/-- C5: with no usable structured parameter list but a truthy
`__text_signature__`, the argument list comes from `parse_text_signature`
(strip parentheses, split on commas, drop `/` and `*`, take the part before
`=`) and the optional count is the number of comma tokens containing `=`;
in particular `"(x, y=2)"` gives `["x","y"]` and `1`. -/
theorem text_signature_fallback (ma na : Option String) (r : String) (hc ic : Bool)
    (d : Option String) (ms : List (String × MethodInfo)) (m : String)
    (c : Char) (cs : List Char) :
    ((get_function_metadata
        { module_attr := ma, name_attr := na, reprStr := r, hasCall := hc, isClass := ic,
          sigOutcome := .raiseTypeValue, text_signature := some (String.mk (c :: cs)),
          doc := d, methods := ms } m).args
        = parse_text_signature (String.mk (c :: cs)) ∧
      (get_function_metadata
        { module_attr := ma, name_attr := na, reprStr := r, hasCall := hc, isClass := ic,
          sigOutcome := .raiseTypeValue, text_signature := some (String.mk (c :: cs)),
          doc := d, methods := ms } m).optionalCount
        = (splitOnChar ',' (pyStripChars ['(', ')'] (c :: cs))).countP
            fun t => t.contains '=') ∧
    ((get_function_metadata
        { module_attr := ma, name_attr := na, reprStr := r, hasCall := hc, isClass := ic,
          sigOutcome := .raiseTypeValue, text_signature := some "(x, y=2)",
          doc := d, methods := ms } m).args = ["x", "y"] ∧
      (get_function_metadata
        { module_attr := ma, name_attr := na, reprStr := r, hasCall := hc, isClass := ic,
          sigOutcome := .raiseTypeValue, text_signature := some "(x, y=2)",
          doc := d, methods := ms } m).optionalCount = 1) := by
  refine ⟨⟨rfl, ?_⟩, rfl, rfl⟩
  show ((splitOnChar ',' (pyStripChars ['(', ')'] (c :: cs))).map
      fun t => if t.contains '=' then 1 else 0).sum = _
  rw [sum_boole_eq_countP]

/-- A callable with a successfully introspected zero-parameter structured
signature, no textual signature, and a docstring whose first line matches
`name(args)`. -/
def exObjZero : PyObj :=
  { module_attr := some "mylib.core", name_attr := some "z", reprStr := "<z>",
    hasCall := true, isClass := false, sigOutcome := .ok [],
    text_signature := none, doc := some "foo(p, q=3)\nmore details.", methods := [] }

/-- C6: with neither a structured nor a textual signature, a docstring whose
start matches `name(args)` supplies the arguments: the captured text is split
on commas, stripped tokens equal to `/` or `*` are discarded, names are the
parts before `=`, and tokens containing `=` are counted optional. -/
theorem docstring_fallback (ma na : Option String) (r : String) (hc ic : Bool)
    (ms : List (String × MethodInfo)) (m d : String) (sp : List Char)
    (hm : docSigMatch d = some sp) :
    (get_function_metadata
        { module_attr := ma, name_attr := na, reprStr := r, hasCall := hc, isClass := ic,
          sigOutcome := .raiseTypeValue, text_signature := none,
          doc := some d, methods := ms } m).args
      = (docPieces sp).map (fun p => String.mk (pyStrip (p.takeWhile (· ≠ '=')))) ∧
    (get_function_metadata
        { module_attr := ma, name_attr := na, reprStr := r, hasCall := hc, isClass := ic,
          sigOutcome := .raiseTypeValue, text_signature := none,
          doc := some d, methods := ms } m).optionalCount
      = (docPieces sp).countP fun p => p.contains '=' := by
  have hd : d ≠ "" := by
    intro h
    subst h
    rw [show docSigMatch "" = none from rfl] at hm
    exact Option.noConfusion hm
  constructor
  · simp [get_function_metadata, _parse_sig, hm, hd]
  · simp [get_function_metadata, _parse_sig, hm, hd]
    exact sum_boole_eq_countP_decide (fun p => '=' ∈ p) (docPieces sp)

/-- Witness for C6: the docstring `"foo(p, q=3)\nmore details."` yields
argument list `["p","q"]` and optional count `1`. -/
theorem docstring_fallback_witness :
    docSigMatch "foo(p, q=3)\nmore details." = some ("p, q=3".data) ∧
    (get_function_metadata
        { module_attr := some "mylib.core", name_attr := some "z", reprStr := "<z>",
          hasCall := true, isClass := false, sigOutcome := .raiseTypeValue,
          text_signature := none, doc := some "foo(p, q=3)\nmore details.",
          methods := [] } "mylib.core").args = ["p", "q"] ∧
    (get_function_metadata
        { module_attr := some "mylib.core", name_attr := some "z", reprStr := "<z>",
          hasCall := true, isClass := false, sigOutcome := .raiseTypeValue,
          text_signature := none, doc := some "foo(p, q=3)\nmore details.",
          methods := [] } "mylib.core").optionalCount = 1 := by
  refine ⟨rfl, ?_, ?_⟩
  · exact (docstring_fallback (some "mylib.core") (some "z") "<z>" true false []
      "mylib.core" "foo(p, q=3)\nmore details." ("p, q=3".data) rfl).1.trans rfl
  · exact (docstring_fallback (some "mylib.core") (some "z") "<z>" true false []
      "mylib.core" "foo(p, q=3)\nmore details." ("p, q=3".data) rfl).2.trans rfl

/-- C10: the fallbacks fire whenever the structured argument list is empty,
even when structured introspection succeeded with zero parameters — the
metadata is then identical to that of a callable whose introspection raised —
and on `exObjZero` (structured success with zero parameters, docstring
`"foo(p, q=3)\n..."`) the docstring-derived result replaces the empty
structured one. -/
theorem zero_param_sig_falls_back (ma na : Option String) (r : String)
    (hc ic : Bool) (ts d : Option String) (ms : List (String × MethodInfo))
    (m : String) :
    get_function_metadata
        { module_attr := ma, name_attr := na, reprStr := r, hasCall := hc, isClass := ic,
          sigOutcome := .ok [], text_signature := ts, doc := d, methods := ms } m
      = get_function_metadata
        { module_attr := ma, name_attr := na, reprStr := r, hasCall := hc, isClass := ic,
          sigOutcome := .raiseTypeValue, text_signature := ts, doc := d, methods := ms } m ∧
    ((get_function_metadata exObjZero "mylib.core").args = ["p", "q"] ∧
     (get_function_metadata exObjZero "mylib.core").optionalCount = 1) :=
  ⟨rfl, rfl, rfl⟩

/-- The de-duplication invariant on a finished analysis: function names are
pairwise distinct and class records have pairwise distinct
`(module, name)` keys. -/
def NoDupResult : Except PyFault AnalysisResult → Prop
  | .ok (.result _ fns cls) =>
      (fns.map FnMeta.name).Nodup ∧
      cls.Pairwise fun a b => ¬(a.module = b.module ∧ a.name = b.name)
  | _ => True

/-- C7: every analysis result has pairwise-distinct function names and
pairwise-distinct `(module, name)` class keys, and each visit only appends to
the existing collections — a later encounter of an existing key leaves the
earlier record in place and first-discovery order intact. -/
theorem first_seen_dedup (env : PyEnv) (lib_name : String)
    (include_only : Option (List String)) :
    NoDupResult (analyze_library env lib_name include_only) ∧
    (∀ (lib2 : String) (allow : List String) (mod : PyModule) (st : VisitState),
      ∃ rf rc, (visit lib2 allow mod st).functions = st.functions ++ rf ∧
        (visit lib2 allow mod st).classes = st.classes ++ rc) ∧
    ∀ (env2 : PyEnv) (lib2 : String) (allow : List String) (root : PyModule),
      ∃ rf rc,
        (analyzeFold env2 lib2 allow root).functions
          = (visit lib2 allow root ⟨[], []⟩).functions ++ rf ∧
        (analyzeFold env2 lib2 allow root).classes
          = (visit lib2 allow root ⟨[], []⟩).classes ++ rc := by
  refine ⟨?_, fun lib2 allow mod st => visit_extend lib2 allow mod st,
    fun env2 lib2 allow root => ?ext⟩
  case ext =>
    unfold analyzeFold
    dsimp only
    split
    · refine foldl_pres _
        (fun st' : VisitState => ∃ rf rc,
          st'.functions = (visit lib2 allow root ⟨[], []⟩).functions ++ rf ∧
          st'.classes = (visit lib2 allow root ⟨[], []⟩).classes ++ rc)
        (fun st' sub hst' => ?_) env2.walk _ ⟨[], [], by simp, by simp⟩
      obtain ⟨rf, rc, hf, hc⟩ := hst'
      obtain ⟨rf', rc', hf', hc'⟩ := walk_step_extend env2 lib2 allow st' sub
      exact ⟨rf ++ rf', rc ++ rc',
        by rw [hf', hf, List.append_assoc], by rw [hc', hc, List.append_assoc]⟩
    · exact ⟨[], [], by simp, by simp⟩
  cases h : safe_import env.importFn lib_name with
  | none =>
    rw [analyze_eq_of_root_fail env lib_name include_only h]
    trivial
  | some root =>
    rw [analyze_eq_of_root_ok env lib_name include_only root h]
    obtain ⟨h1, h2, h3, h4⟩ :=
      analyzeFold_StateOK env lib_name (include_only.getD []) root
    constructor
    · rw [List.map_map]
      have heq : (analyzeFold env lib_name (include_only.getD []) root).functions.map
            (FnMeta.name ∘ Prod.snd)
          = (analyzeFold env lib_name (include_only.getD []) root).functions.map
            Prod.fst :=
        List.map_congr_left fun p hp => (h2 p hp).1
      rw [heq]
      exact h1
    · rw [List.pairwise_map]
      have hpair : (analyzeFold env lib_name (include_only.getD []) root).classes.Pairwise
          fun a b => a.1 ≠ b.1 := List.pairwise_map.mp h3
      refine hpair.imp_of_mem fun {a b} ha hb hne hcontra => ?_
      exact hne (by rw [(h4 a ha).1, (h4 b hb).1, hcontra.1, hcontra.2])

/-- Every record of an allow-list analysis is named by an allow-list entry. -/
def AllowRestricted (allow : List String) : Except PyFault AnalysisResult → Prop
  | .ok (.result _ fns cls) =>
      (∀ f ∈ fns, f.name ∈ allow) ∧ ∀ c ∈ cls, c.name ∈ allow
  | _ => True

/-- With the allow-list `["foo"]` the analysis reports at most one function,
necessarily named `foo`. -/
def AtMostOneFoo : Except PyFault AnalysisResult → Prop
  | .ok (.result _ fns _) => fns.length ≤ 1 ∧ ∀ f ∈ fns, f.name = "foo"
  | _ => True

/-- C8: with a non-empty allow-list the result is independent of the walked
submodule list (no sub-module traversal happens), every kept symbol's name is
in the allow-list, and an allow-list of just `"foo"` yields at most one
function record, named `foo` (class records are likewise named `foo`). -/
theorem allow_list_targeted (imp : String → Except PyFault PyModule)
    (w₁ w₂ : List String) (lib_name n : String) (rest : List String) :
    analyze_library ⟨imp, w₁⟩ lib_name (some (n :: rest)) =
      analyze_library ⟨imp, w₂⟩ lib_name (some (n :: rest)) ∧
    AllowRestricted (n :: rest)
      (analyze_library ⟨imp, w₁⟩ lib_name (some (n :: rest))) ∧
    AtMostOneFoo (analyze_library ⟨imp, w₁⟩ lib_name (some ["foo"])) := by
  have hmem : ∀ (allow : List String) (s : String), allow ≠ [] →
      _want allow s = true → s ∈ allow := by
    intro allow s hne hw
    unfold _want at hw
    cases allow with
    | nil => exact absurd rfl hne
    | cons a t =>
      rw [List.isEmpty_cons, Bool.false_or] at hw
      exact List.elem_iff.mp hw
  refine ⟨?_, ?_, ?_⟩
  · cases h : safe_import imp lib_name with
    | none =>
      rw [analyze_eq_of_root_fail ⟨imp, w₁⟩ lib_name _ h,
        analyze_eq_of_root_fail ⟨imp, w₂⟩ lib_name _ h]
    | some root =>
      rw [analyze_eq_of_root_ok ⟨imp, w₁⟩ lib_name _ root h,
        analyze_eq_of_root_ok ⟨imp, w₂⟩ lib_name _ root h]
      rfl
  · cases h : safe_import imp lib_name with
    | none =>
      rw [analyze_eq_of_root_fail ⟨imp, w₁⟩ lib_name _ h]
      trivial
    | some root =>
      rw [analyze_eq_of_root_ok ⟨imp, w₁⟩ lib_name _ root h]
      obtain ⟨h1, h2, h3, h4⟩ :=
        analyzeFold_StateOK ⟨imp, w₁⟩ lib_name ((some (n :: rest)).getD []) root
      constructor
      · intro f hf
        rw [List.mem_map] at hf
        obtain ⟨p, hp, hpf⟩ := hf
        exact hpf ▸ hmem _ _ (List.cons_ne_nil n rest) (h2 p hp).2
      · intro c hc
        rw [List.mem_map] at hc
        obtain ⟨p, hp, hpc⟩ := hc
        exact hpc ▸ hmem _ _ (List.cons_ne_nil n rest) (h4 p hp).2
  · cases h : safe_import imp lib_name with
    | none =>
      rw [analyze_eq_of_root_fail ⟨imp, w₁⟩ lib_name _ h]
      trivial
    | some root =>
      rw [analyze_eq_of_root_ok ⟨imp, w₁⟩ lib_name _ root h]
      obtain ⟨h1, h2, h3, h4⟩ :=
        analyzeFold_StateOK ⟨imp, w₁⟩ lib_name ((some ["foo"]).getD []) root
      have hfoo : ∀ p ∈ (analyzeFold ⟨imp, w₁⟩ lib_name ["foo"] root).functions,
          p.2.name = "foo" := by
        intro p hp
        have := hmem ["foo"] p.2.name (by simp) (h2 p hp).2
        simpa using this
      constructor
      · rw [List.length_map]
        have hlen : ((analyzeFold ⟨imp, w₁⟩ lib_name ["foo"] root).functions.map
            Prod.fst).length ≤ 1 := by
          refine length_le_one_of_nodup_const h1 "foo" ?_
          intro x hx
          rw [List.mem_map] at hx
          obtain ⟨p, hp, hpx⟩ := hx
          rw [← hpx, ← (h2 p hp).1]
          exact hfoo p hp
        rwa [List.length_map] at hlen
      · intro f hf
        rw [List.mem_map] at hf
        obtain ⟨p, hp, hpf⟩ := hf
        exact hpf ▸ hfoo p hp

/-- C9: every class a visit keeps (module-path match, allow-list pass) shows
up in the functions dictionary under its own name as well as in the classes
dictionary under its `(module, name)` key: the function loop's member filter
is plain `callable(obj)` and class objects are callable. -/
theorem classes_counted_as_functions (lib_name : String) (allow : List String)
    (mod : PyModule) (st : VisitState) (nm : String) (o : PyObj)
    (hmem : (nm, o) ∈ mod.members) (hcls : o.isClass = true)
    (hpre : pyStartsWith (o.module_attr.getD "") lib_name = true)
    (hwant : _want allow (o.name_attr.getD o.reprStr) = true) :
    ((visit lib_name allow mod st).functions.any
      fun p => p.1 == o.name_attr.getD o.reprStr) = true ∧
    ((visit lib_name allow mod st).classes.any
      fun p => p.1 == (o.module_attr.getD "") ++ "." ++ (o.name_attr.getD o.reprStr)) = true := by
  obtain ⟨pre, post, hsplit⟩ := List.append_of_mem hmem
  have hcall : _is_callable o = true := by
    unfold _is_callable
    rw [hcls, Bool.true_or]
  constructor
  · show ((mod.members.foldl (visitFn lib_name allow) st.functions).any _) = true
    rw [hsplit, List.foldl_append, List.foldl_cons]
    exact foldl_visitFn_any lib_name allow post _ _
      (visitFn_key_present lib_name allow _ (nm, o) hcall hpre hwant)
  · show ((mod.members.foldl (visitCls lib_name allow) st.classes).any _) = true
    rw [hsplit, List.foldl_append, List.foldl_cons]
    exact foldl_visitCls_any lib_name allow post _ _
      (visitCls_key_present lib_name allow _ (nm, o) hcls hpre hwant)

/-- Witness for C9: in the sample library, the class `C` of `mylib.core`
appears in the functions dictionary under the key `"C"` and in the classes
dictionary under `"mylib.core.C"`. -/
theorem classes_counted_as_functions_witness :
    ((visit "mylib" [] exMod ⟨[], []⟩).functions.any
      fun p => p.1 == exClass.name_attr.getD exClass.reprStr) = true ∧
    ((visit "mylib" [] exMod ⟨[], []⟩).classes.any
      fun p => p.1 == (exClass.module_attr.getD "") ++ "." ++
        (exClass.name_attr.getD exClass.reprStr)) = true :=
  classes_counted_as_functions "mylib" [] exMod ⟨[], []⟩ "C" exClass
    (by decide) (by decide) (by decide) (by decide)

end WrapPyJ
